import Mathlib

/-!
Verification of `mol_parse.py`: a molecule-to-raytracer-scene converter.

Embedding notes.
* Coordinates are embedded as exact rationals (`ℚ`).  The Python code works
  with floating-point numbers; here every arithmetic step the code performs is
  carried out exactly.
* `np.linalg.norm` returns a square root, which is irrational in general.  To
  keep every definition executable, norms are tracked *squared*: the comparison
  `distance < threshold` of the source is embedded as
  `distSq < threshold ^ 2` (equivalent for nonnegative reals, see the lemma
  `sqrt_lt_iff_sq_lt`), the cylinder `height` field stores the squared
  distance, and `normalize` returns its argument paired with the square of the
  divisor that the source divides by (`1` when the zero-vector guard fires and
  no division happens).  Theorems relate these exact values to the intended
  real ones through `Real.sqrt`.
* Scene lines are embedded as an inductive `Line` of their constituent data
  rather than as formatted strings; the fixed-decimal text formatting is the
  serializer's concern and none of the claims are about it.
* `parse_xyz_data` is embedded on input already split into lines and
  whitespace tokens (`List (List String)`), with Python's `float` embedded as
  an abstract parameter `pf : String → Option ℚ` (`none` = `ValueError`);
  the parser's result is `Option` (`none` = the exception propagates).
-/

namespace MolParse

/-- A 3-component vector, `np.array([x, y, z])` of the source. -/
structure Vec3 where
  x : ℚ
  y : ℚ
  z : ℚ
deriving DecidableEq, Repr

def Vec3.add (a b : Vec3) : Vec3 := ⟨a.x + b.x, a.y + b.y, a.z + b.z⟩

def Vec3.sub (a b : Vec3) : Vec3 := ⟨a.x - b.x, a.y - b.y, a.z - b.z⟩

def Vec3.smul (q : ℚ) (a : Vec3) : Vec3 := ⟨q * a.x, q * a.y, q * a.z⟩

/-- Squared Euclidean norm: `np.linalg.norm(v) ** 2`, kept squared to stay
rational.  The real norm is `Real.sqrt` of this. -/
def Vec3.normSq (v : Vec3) : ℚ := v.x * v.x + v.y * v.y + v.z * v.z

/-- Embeds `calculate_distance(point1, point2) ** 2`: the squared Euclidean distance
`‖point2 - point1‖²`.  The real distance of the source is `Real.sqrt` of
this. -/
def distSq (point1 point2 : Vec3) : ℚ := (point2.sub point1).normSq

/-- The value returned by `normalize`: the pair `(vec, scaleSq)` denotes the
real vector `vec / Real.sqrt scaleSq`, componentwise.  `scaleSq = 1` encodes
"returned unchanged, no division happened". -/
structure ScaledVec where
  vec : Vec3
  scaleSq : ℚ
deriving DecidableEq, Repr

/-- Embeds `normalize(vector)` of the source.  The source tests `norm == 0`, which
(exactly) holds iff the squared norm is `0`; if so it returns `vector`
unchanged (denoted `⟨vector, 1⟩`), otherwise it divides by the norm
(denoted `⟨vector, normSq⟩`, i.e. `vector / √normSq`). -/
def normalize (vector : Vec3) : ScaledVec :=
  if vector.normSq = 0 then ⟨vector, 1⟩ else ⟨vector, vector.normSq⟩

/-- Embeds `determine_bond_threshold(atom_type1, atom_type2)` of the source.
`1.6 = 8/5`, `1.8 = 9/5` (both decimal literals are exact here; the float
rounding of the source does not affect any claim). -/
def determine_bond_threshold (atom_type1 atom_type2 : String) : ℚ :=
  if (atom_type1 = "P" ∧ atom_type2 = "O") ∨ (atom_type1 = "O" ∧ atom_type2 = "P") then
    9/5
  else
    8/5

/-- An atom record `(atom_type, np.array([x, y, z]))`. -/
def Atom : Type := String × Vec3

/-- One line of the generated map content, as its constituent data. -/
inductive Line where
  | ambient (strength : ℚ) (color : ℕ × ℕ × ℕ)
  | camera (pos : Vec3) (dir : Vec3) (fov : ℕ)
  | light (pos : Vec3) (brightness : ℚ) (color : ℕ × ℕ × ℕ)
  | sphere (pos : Vec3) (radius : ℚ) (color : ℕ × ℕ × ℕ)
  | cylinder (center : Vec3) (dir : ScaledVec) (radius : ℚ) (heightSq : ℚ)
      (color : ℕ × ℕ × ℕ)
deriving DecidableEq, Repr

def Line.isSphere : Line → Bool
  | .sphere _ _ _ => true
  | _ => false

def Line.isCylinder : Line → Bool
  | .cylinder _ _ _ _ _ => true
  | _ => false

/-- The fixed 3-line preamble: ambient light, camera, light source. -/
def preamble : List Line :=
  [ .ambient (1/5) (255, 255, 255),
    .camera ⟨-50, 0, 20⟩ ⟨0, 0, 1⟩ 70,
    .light ⟨-40, 50, 0⟩ (3/5) (10, 0, 255) ]

/-- Constant `sphere_radius = 1.0` of the source. -/
def sphere_radius : ℚ := 1

/-- Constant `cylinder_radius = 0.2` of the source. -/
def cylinder_radius : ℚ := 1/5

/-- The element→RGB lookup of the sphere loop (default white, then the
`if`/`elif` chain on the atom type). -/
def atomColor (atom_type : String) : ℕ × ℕ × ℕ :=
  if atom_type = "C" then (128, 128, 128)
  else if atom_type = "N" then (0, 0, 255)
  else if atom_type = "O" then (255, 0, 0)
  else if atom_type = "H" then (255, 255, 255)
  else if atom_type = "P" then (255, 165, 0)
  else (255, 255, 255)

/-- The sphere line emitted for one atom:
`sp <position> <sphere_radius*1> <r>,<g>,<b>`. -/
def sphereLine (a : Atom) : Line :=
  Line.sphere a.2 (sphere_radius * 1) (atomColor a.1)

/-- The body of the pairwise bond loop for two atom records: compute the
distance and the threshold, and emit a cylinder when `distance < threshold`
(embedded on squares: `distSq < threshold²`).  The cylinder's center is the
midpoint, its direction `normalize(position2 - position1)`, its radius
`cylinder_radius * 2`, its height the interatomic distance (stored squared),
its color `(200, 200, 200)`. -/
def emitFor (a b : Atom) : Option Line :=
  let dsq := distSq a.2 b.2
  let bond_threshold := determine_bond_threshold a.1 b.1
  if dsq < bond_threshold ^ 2 then
    some (Line.cylinder (Vec3.smul (1/2) (a.2.add b.2)) (normalize (b.2.sub a.2))
      (cylinder_radius * 2) dsq (200, 200, 200))
  else
    none

/-- Fallback atom for out-of-range indexing (never reached for the index
ranges the generator uses). -/
def dummyAtom : Atom := ("", ⟨0, 0, 0⟩)

/-- The `(i, j)` iteration body: `atoms[i]`, `atoms[j]` fed to the loop
body. -/
def pairEmit (atoms : List Atom) (i j : ℕ) : Option Line :=
  emitFor (atoms.getD i dummyAtom) (atoms.getD j dummyAtom)

/-- The cylinder section of the output: `for i in range(len(atoms)): for j in
range(i + 1, len(atoms)): ...` — `List.range' (i+1) (n-(i+1))` is exactly
Python's `range(i+1, n)`. -/
def cylinderSection (atoms : List Atom) : List Line :=
  (List.range atoms.length).flatMap fun i =>
    (List.range' (i + 1) (atoms.length - (i + 1))).filterMap fun j =>
      pairEmit atoms i j

/-- Embeds `generate_map_content(atoms)` of the source: the preamble, then a sphere
per atom in list order, then the cylinders of the pairwise loop. -/
def generate_map_content (atoms : List Atom) : List Line :=
  preamble ++ atoms.map sphereLine ++ cylinderSection atoms

/-- Spec-side enumeration of the cylinder lines, following the spec's words:
"all cylinder primitives (pair order: outer loop over i, inner loop over
j>i)" — each atom is paired, in order, with every atom after it. -/
def specCylinderOrder : List Atom → List Line
  | [] => []
  | a :: rest => rest.filterMap (emitFor a) ++ specCylinderOrder rest

/-- Spec-side list of unordered pairs `(i, j)` with `i` before `j`, in the
enumeration order of the spec. -/
def atomPairs : List Atom → List (Atom × Atom)
  | [] => []
  | a :: rest => rest.map (fun b => (a, b)) ++ atomPairs rest

/-- The bond decision for a pair of atom records (the `if` of the pairwise
loop). -/
def bondedB (a b : Atom) : Bool :=
  distSq a.2 b.2 < determine_bond_threshold a.1 b.1 ^ 2

/-- Embeds `parse_xyz_data(xyz_data)` of the source, on input already split into
lines and whitespace tokens.  `pf` embeds Python's `float` (`none` =
`ValueError`).  A line with fewer than 4 tokens is skipped (`continue`);
otherwise `float` is applied to tokens 1..3 and a failure propagates
(overall `none`); on success `(parts[0], np.array([x, y, z]))` is appended. -/
def parse_xyz_data (pf : String → Option ℚ) : List (List String) → Option (List Atom)
  | [] => some []
  | parts :: rest =>
    if parts.length < 4 then
      parse_xyz_data pf rest
    else
      match pf (parts.getD 1 ""), pf (parts.getD 2 ""), pf (parts.getD 3 "") with
      | some x, some y, some z =>
          (parse_xyz_data pf rest).map fun atoms => (parts.getD 0 "", (⟨x, y, z⟩ : Vec3)) :: atoms
      | _, _, _ => none

/-! ### Helper lemmas -/

/-- The bond threshold is positive for every pair of labels. -/
theorem determine_bond_threshold_pos (a b : String) :
    0 < determine_bond_threshold a b := by
  unfold determine_bond_threshold
  split <;> norm_num

/-- For a positive rational threshold `t`, the source's float comparison
`distance < t` (distance = `√dsq`) agrees with the embedded comparison
`dsq < t²`. -/
theorem sqrt_lt_iff_sq_lt (dsq t : ℚ) (ht : 0 < t) :
    Real.sqrt (dsq : ℝ) < (t : ℝ) ↔ dsq < t ^ 2 := by
  rw [Real.sqrt_lt' (by exact_mod_cast ht)]
  exact_mod_cast Iff.rfl

/-- Indexing one step into a cons shifts the pairwise-loop body. -/
theorem pairEmit_cons_succ (a : Atom) (rest : List Atom) (i j : ℕ) :
    pairEmit (a :: rest) (i + 1) (j + 1) = pairEmit rest i j := by
  simp [pairEmit, List.getD_cons_succ]

/-- Running a per-element emitter over a list's index range is running it over
the list. -/
theorem filterMap_getD_range {α β : Type} (l : List α) (g : α → Option β) (d : α) :
    (List.range l.length).filterMap (fun j => g (l.getD j d)) = l.filterMap g := by
  induction l with
  | nil => rfl
  | cons x xs ih =>
    rw [List.length_cons, List.range_succ_eq_map, List.filterMap_cons,
      List.filterMap_map]
    simp only [List.getD_cons_zero, Function.comp_def, Nat.succ_eq_add_one,
      List.getD_cons_succ, ih]
    rw [List.filterMap_cons]

/-- The double index loop of the source enumerates exactly the structural
"each atom against every later atom" order. -/
theorem cylinderSection_eq_specCylinderOrder (atoms : List Atom) :
    cylinderSection atoms = specCylinderOrder atoms := by
  induction atoms with
  | nil => rfl
  | cons a rest ih =>
    unfold cylinderSection specCylinderOrder
    rw [List.length_cons, List.range_succ_eq_map, List.flatMap_cons,
      List.flatMap_map]
    simp only [Function.comp_def, Nat.succ_eq_add_one]
    congr 1
    · rw [show rest.length + 1 - (0 + 1) = rest.length by omega,
        List.range'_eq_map_range, List.filterMap_map]
      have h : ((fun j => pairEmit (a :: rest) 0 j) ∘ fun k => 0 + 1 + k)
          = fun k => emitFor a (rest.getD k dummyAtom) := by
        funext k
        simp [Function.comp, show 0 + 1 + k = k + 1 by omega, pairEmit,
          List.getD_cons_succ]
      rw [h, filterMap_getD_range]
    · rw [← ih]
      unfold cylinderSection
      congr 1
      funext i
      rw [show rest.length + 1 - (i + 1 + 1) = rest.length - (i + 1) by omega,
        List.range'_eq_map_range, List.range'_eq_map_range,
        List.filterMap_map, List.filterMap_map]
      congr 1
      funext k
      simp only [Function.comp,
        show i + 1 + 1 + k = (i + 1 + k) + 1 by omega, pairEmit_cons_succ]

/-- The pairwise-loop body, written with the bond decision exposed. -/
theorem emitFor_def (a b : Atom) :
    emitFor a b
      = if bondedB a b then
          some (Line.cylinder (Vec3.smul (1/2) (a.2.add b.2)) (normalize (b.2.sub a.2))
            (cylinder_radius * 2) (distSq a.2 b.2) (200, 200, 200))
        else none := by
  unfold emitFor bondedB
  split_ifs <;> simp_all

/-- Every line of the structural cylinder enumeration is a cylinder. -/
theorem specCylinderOrder_isCylinder (atoms : List Atom) :
    ∀ l ∈ specCylinderOrder atoms, l.isCylinder = true := by
  induction atoms with
  | nil => intro l hl; cases hl
  | cons a rest ih =>
    intro l hl
    rcases List.mem_append.mp hl with h | h
    · rcases List.mem_filterMap.mp h with ⟨b, _, hb⟩
      rw [emitFor_def] at hb
      split_ifs at hb
      cases hb
      rfl
    · exact ih l h

/-- The squared norm of a vector is nonnegative. -/
theorem normSq_nonneg (v : Vec3) : 0 ≤ v.normSq := by
  unfold Vec3.normSq
  have hx := mul_self_nonneg v.x
  have hy := mul_self_nonneg v.y
  have hz := mul_self_nonneg v.z
  linarith

/-- The squared distance between two points is nonnegative. -/
theorem distSq_nonneg (p q : Vec3) : 0 ≤ distSq p q := normSq_nonneg _

/-- A successful pairwise emission with `i < j < n` lands in the cylinder
section of the output. -/
theorem pairEmit_mem_cylinderSection {atoms : List Atom} {i j : ℕ} {l : Line}
    (hij : i < j) (hj : j < atoms.length) (h : pairEmit atoms i j = some l) :
    l ∈ cylinderSection atoms := by
  unfold cylinderSection
  rw [List.mem_flatMap]
  refine ⟨i, List.mem_range.mpr (lt_trans hij hj), ?_⟩
  rw [List.mem_filterMap]
  refine ⟨j, ?_, h⟩
  rw [List.mem_range']
  exact ⟨j - (i + 1), by omega, by omega⟩

/-- C2: `determine_bond_threshold` returns 1.8 (= 9/5) exactly when the
unordered pair of labels is {"P","O"}, 1.6 (= 8/5) for every other pair
(same-element and unrecognized labels included), and is order-independent. -/
theorem determine_bond_threshold_spec (a b : String) :
    determine_bond_threshold a b
        = (if ({a, b} : Finset String) = {"P", "O"} then 9/5 else 8/5) ∧
    determine_bond_threshold a b = determine_bond_threshold b a := by
  constructor
  · unfold determine_bond_threshold
    by_cases h : (a = "P" ∧ b = "O") ∨ (a = "O" ∧ b = "P")
    · rw [if_pos h, if_pos ?_]
      rcases h with ⟨ha, hb⟩ | ⟨ha, hb⟩
      · rw [ha, hb]
      · rw [ha, hb]
        exact Finset.pair_comm "O" "P"
    · rw [if_neg h, if_neg ?_]
      intro hpair
      have h2 : (({a, b} : Finset String) : Set String)
          = (({"P", "O"} : Finset String) : Set String) := by rw [hpair]
      simp only [Finset.coe_insert, Finset.coe_singleton] at h2
      rcases Set.pair_eq_pair_iff.mp h2 with ⟨ha, hb⟩ | ⟨ha, hb⟩
      · exact h (Or.inl ⟨ha, hb⟩)
      · exact h (Or.inr ⟨ha, hb⟩)
  · unfold determine_bond_threshold
    split_ifs with h1 h2 h2 <;> first | rfl | (exfalso; tauto)

/-- C7: on the empty atom list the generator produces exactly the 3-line
preamble (ambient light, camera, light) and nothing else. -/
theorem generate_map_content_nil :
    generate_map_content [] = preamble ∧
    preamble.length = 3 ∧
    preamble = [Line.ambient (1/5) (255, 255, 255),
      Line.camera ⟨-50, 0, 20⟩ ⟨0, 0, 1⟩ 70,
      Line.light ⟨-40, 50, 0⟩ (3/5) (10, 0, 255)] :=
  ⟨rfl, rfl, rfl⟩

/-- C5: the output is the fixed 3-line preamble, then the sphere lines in
atom input order, then the cylinder lines in the pair enumeration order
(outer index `i` increasing, inner index `j > i` increasing, here the
structural "each atom against every later atom" enumeration); sphere and
cylinder lines are never interleaved. -/
theorem generate_map_content_order (atoms : List Atom) :
    generate_map_content atoms
        = preamble ++ atoms.map sphereLine ++ specCylinderOrder atoms ∧
    (∀ l ∈ atoms.map sphereLine, l.isSphere = true) ∧
    (∀ l ∈ specCylinderOrder atoms, l.isCylinder = true) := by
  refine ⟨?_, ?_, specCylinderOrder_isCylinder atoms⟩
  · unfold generate_map_content
    rw [cylinderSection_eq_specCylinderOrder]
  · intro l hl
    rcases List.mem_map.mp hl with ⟨a, _, ha⟩
    rw [← ha]
    rfl

/-- C6: `normalize` is total and never divides by zero: the squared divisor
is always nonzero; on a zero-norm vector it returns the vector unchanged
(divisor 1, no division); on a nonzero vector it divides by the norm
(the divisor is positive) and the result has real norm 1. -/
theorem normalize_spec (v : Vec3) :
    (normalize v).scaleSq ≠ 0 ∧
    (normalize v).vec = v ∧
    (Real.sqrt (v.normSq : ℝ) = 0 ↔ v.normSq = 0) ∧
    (v.normSq = 0 → normalize v = ⟨v, 1⟩ ∧
      ((normalize v).vec.x : ℝ) / Real.sqrt ((normalize v).scaleSq : ℝ) = (v.x : ℝ) ∧
      ((normalize v).vec.y : ℝ) / Real.sqrt ((normalize v).scaleSq : ℝ) = (v.y : ℝ) ∧
      ((normalize v).vec.z : ℝ) / Real.sqrt ((normalize v).scaleSq : ℝ) = (v.z : ℝ)) ∧
    (v.normSq ≠ 0 → (normalize v).scaleSq = v.normSq ∧
      0 < Real.sqrt (((normalize v).scaleSq : ℚ) : ℝ) ∧
      (((normalize v).vec.x : ℝ) / Real.sqrt ((normalize v).scaleSq : ℝ)) ^ 2
        + (((normalize v).vec.y : ℝ) / Real.sqrt ((normalize v).scaleSq : ℝ)) ^ 2
        + (((normalize v).vec.z : ℝ) / Real.sqrt ((normalize v).scaleSq : ℝ)) ^ 2 = 1) := by
  have hnn : (0 : ℝ) ≤ (v.normSq : ℝ) := by exact_mod_cast normSq_nonneg v
  by_cases h : v.normSq = 0
  · refine ⟨?_, ?_, ?_, ?_, ?_⟩
    · unfold normalize; rw [if_pos h]; norm_num
    · unfold normalize; rw [if_pos h]
    · rw [Real.sqrt_eq_zero hnn]; exact_mod_cast Iff.rfl
    · intro _
      refine ⟨by unfold normalize; rw [if_pos h], ?_, ?_, ?_⟩ <;>
        · unfold normalize; rw [if_pos h]; norm_num
    · intro hne; exact absurd h hne
  · have hpos : (0 : ℝ) < (v.normSq : ℝ) := by
      rcases lt_or_eq_of_le hnn with hlt | heq
      · exact hlt
      · exfalso; exact h (by exact_mod_cast heq.symm)
    have hsq : Real.sqrt ((v.normSq : ℚ) : ℝ) ^ 2 = (v.normSq : ℝ) :=
      Real.sq_sqrt hnn
    have hsqrtpos : 0 < Real.sqrt ((v.normSq : ℚ) : ℝ) :=
      Real.sqrt_pos.mpr hpos
    refine ⟨?_, ?_, ?_, ?_, ?_⟩
    · unfold normalize; rw [if_neg h]; exact h
    · unfold normalize; rw [if_neg h]
    · rw [Real.sqrt_eq_zero hnn]; exact_mod_cast Iff.rfl
    · intro h0; exact absurd h0 h
    · intro _
      have hvec : (normalize v).vec = v := by unfold normalize; rw [if_neg h]
      have hscale : (normalize v).scaleSq = v.normSq := by
        unfold normalize; rw [if_neg h]
      refine ⟨hscale, by rw [hscale]; exact hsqrtpos, ?_⟩
      rw [hvec, hscale]
      rw [div_pow, div_pow, div_pow, hsq, div_add_div_same, div_add_div_same,
        div_eq_one_iff_eq (ne_of_gt hpos)]
      unfold Vec3.normSq
      push_cast
      ring

/-- C1: for indices `i < j` into the atom list, the pairwise loop emits a
cylinder for the pair exactly when the Euclidean distance between the two
positions is strictly less than the bond threshold for the two labels; at
exactly the threshold distance nothing is emitted; whatever is emitted is in
the generated output. -/
theorem pairEmit_iff_dist_lt (atoms : List Atom) (i j : ℕ)
    (hij : i < j) (hj : j < atoms.length) :
    ((pairEmit atoms i j).isSome = true ↔
      Real.sqrt ((distSq (atoms.getD i dummyAtom).2 (atoms.getD j dummyAtom).2 : ℚ) : ℝ)
        < ((determine_bond_threshold (atoms.getD i dummyAtom).1
            (atoms.getD j dummyAtom).1 : ℚ) : ℝ)) ∧
    (Real.sqrt ((distSq (atoms.getD i dummyAtom).2 (atoms.getD j dummyAtom).2 : ℚ) : ℝ)
        = ((determine_bond_threshold (atoms.getD i dummyAtom).1
            (atoms.getD j dummyAtom).1 : ℚ) : ℝ) →
      pairEmit atoms i j = none) ∧
    (∀ l, pairEmit atoms i j = some l → l ∈ generate_map_content atoms) := by
  set a := atoms.getD i dummyAtom with ha
  set b := atoms.getD j dummyAtom with hb
  have hlt := sqrt_lt_iff_sq_lt (distSq a.2 b.2) (determine_bond_threshold a.1 b.1)
    (determine_bond_threshold_pos a.1 b.1)
  refine ⟨?_, ?_, ?_⟩
  · rw [hlt]
    unfold pairEmit
    rw [← ha, ← hb, emitFor_def]
    unfold bondedB
    split_ifs with h <;> simp_all
  · intro heq
    have hsq : ((distSq a.2 b.2 : ℚ) : ℝ) = ((determine_bond_threshold a.1 b.1 : ℚ) : ℝ) ^ 2 := by
      rw [← heq, Real.sq_sqrt (by exact_mod_cast distSq_nonneg a.2 b.2)]
    have hq : distSq a.2 b.2 = determine_bond_threshold a.1 b.1 ^ 2 := by
      exact_mod_cast hsq
    unfold pairEmit
    rw [← ha, ← hb, emitFor_def]
    unfold bondedB
    rw [if_neg]
    simp only [hq, decide_eq_true_eq]
    exact lt_irrefl _
  · intro l hl
    unfold generate_map_content
    refine List.mem_append.mpr (Or.inr ?_)
    exact pairEmit_mem_cylinderSection hij hj hl

/-- C9: two atoms at identical positions are always bonded (distance 0 is
below every threshold): the pair emits a cylinder whose center is that very
position, whose direction is `normalize` of the zero difference — the zero
vector, unchanged — and whose length is 0; the emitted line is in the
generated output. -/
theorem pairEmit_duplicate_position (atoms : List Atom) (i j : ℕ)
    (hij : i < j) (hj : j < atoms.length)
    (hpos : (atoms.getD i dummyAtom).2 = (atoms.getD j dummyAtom).2) :
    pairEmit atoms i j
        = some (Line.cylinder (atoms.getD i dummyAtom).2 (normalize ⟨0, 0, 0⟩)
            (cylinder_radius * 2) 0 (200, 200, 200)) ∧
    normalize ⟨0, 0, 0⟩ = ⟨⟨0, 0, 0⟩, 1⟩ ∧
    (∀ l, pairEmit atoms i j = some l → l ∈ generate_map_content atoms) := by
  set a := atoms.getD i dummyAtom with ha
  set b := atoms.getD j dummyAtom with hb
  have hsub : b.2.sub a.2 = ⟨0, 0, 0⟩ := by
    rw [← hpos]
    unfold Vec3.sub
    simp
  have hdist : distSq a.2 b.2 = 0 := by
    unfold distSq
    rw [hsub]
    norm_num [Vec3.normSq]
  have hmid : Vec3.smul (1/2) (a.2.add b.2) = a.2 := by
    rw [← hpos]
    unfold Vec3.smul Vec3.add
    rcases a.2 with ⟨x, y, z⟩
    simp only [Vec3.mk.injEq]
    refine ⟨by ring, by ring, by ring⟩
  refine ⟨?_, by norm_num [normalize, Vec3.normSq], ?_⟩
  · unfold pairEmit
    rw [← ha, ← hb, emitFor_def]
    rw [if_pos]
    · rw [hmid, hsub, hdist]
    · unfold bondedB
      rw [hdist]
      simp only [decide_eq_true_eq]
      exact pow_pos (determine_bond_threshold_pos a.1 b.1) 2
  · intro l hl
    unfold generate_map_content
    exact List.mem_append.mpr (Or.inr (pairEmit_mem_cylinderSection hij hj hl))

/-- No preamble line and no sphere line is a cylinder. -/
theorem mem_preamble_not_cylinder (l : Line) (hl : l ∈ preamble) :
    l.isCylinder = false := by
  rcases hl with _ | ⟨_, _ | ⟨_, _ | ⟨_, h⟩⟩⟩ <;> first | rfl | cases ‹_ ∈ ([] : List Line)›

/-- C3: every cylinder line the generator emits belongs to some pair
`i < j` of bonded atoms and carries exactly: center = midpoint of the two
positions, direction = `normalize(position_j - position_i)`, radius =
`cylinder_radius * 2 = 0.4`, height = the interatomic distance (stored
squared), color = (200, 200, 200). -/
theorem cylinder_fields (atoms : List Atom) (l : Line)
    (hl : l ∈ generate_map_content atoms) (hc : l.isCylinder = true) :
    ∃ i j, i < j ∧ j < atoms.length ∧
      bondedB (atoms.getD i dummyAtom) (atoms.getD j dummyAtom) = true ∧
      l = Line.cylinder
        (Vec3.smul (1/2) ((atoms.getD i dummyAtom).2.add (atoms.getD j dummyAtom).2))
        (normalize ((atoms.getD j dummyAtom).2.sub (atoms.getD i dummyAtom).2))
        (cylinder_radius * 2)
        (distSq (atoms.getD i dummyAtom).2 (atoms.getD j dummyAtom).2)
        (200, 200, 200) ∧
      cylinder_radius * 2 = 2/5 := by
  unfold generate_map_content at hl
  rcases List.mem_append.mp hl with hl' | hl'
  · rcases List.mem_append.mp hl' with hp | hs
    · rw [mem_preamble_not_cylinder l hp] at hc
      cases hc
    · rcases List.mem_map.mp hs with ⟨a, _, ha⟩
      rw [← ha] at hc
      cases hc
  · unfold cylinderSection at hl'
    rcases List.mem_flatMap.mp hl' with ⟨i, hi, hmem⟩
    rcases List.mem_filterMap.mp hmem with ⟨j, hjr, hemit⟩
    rw [List.mem_range'] at hjr
    rcases hjr with ⟨k, hk, hjk⟩
    have hij : i < j := by omega
    have hjn : j < atoms.length := by
      rw [List.mem_range] at hi
      omega
    refine ⟨i, j, hij, hjn, ?_, ?_, by norm_num [cylinder_radius]⟩
    · unfold pairEmit at hemit
      rw [emitFor_def] at hemit
      split_ifs at hemit with hbond
      · exact hbond
    · unfold pairEmit at hemit
      rw [emitFor_def] at hemit
      split_ifs at hemit
      cases hemit
      rfl

/-- Emitting one atom against a list yields one cylinder per bonded partner. -/
theorem filterMap_emitFor_length (a : Atom) (rest : List Atom) :
    (rest.filterMap (emitFor a)).length = (rest.filter fun b => bondedB a b).length := by
  induction rest with
  | nil => rfl
  | cons b bs ih =>
    cases h : bondedB a b <;>
      simp [List.filterMap_cons, List.filter_cons, emitFor_def, h, ih]

/-- The cylinder lines are in bijection with the bonded pairs, in order. -/
theorem specCylinderOrder_length (atoms : List Atom) :
    (specCylinderOrder atoms).length
      = ((atomPairs atoms).filter fun p => bondedB p.1 p.2).length := by
  induction atoms with
  | nil => rfl
  | cons a rest ih =>
    unfold specCylinderOrder atomPairs
    rw [List.length_append, List.filter_append, List.length_append, ih,
      filterMap_emitFor_length]
    congr 1
    rw [List.filter_map, List.length_map]
    rfl

/-- There are `n * (n - 1) / 2` unordered pairs of distinct atoms. -/
theorem atomPairs_two_mul_length (atoms : List Atom) :
    2 * (atomPairs atoms).length = atoms.length * (atoms.length - 1) := by
  induction atoms with
  | nil => rfl
  | cons a rest ih =>
    unfold atomPairs
    rw [List.length_append, List.length_map, List.length_cons, Nat.add_sub_cancel]
    cases hr : rest.length with
    | zero =>
      have hnil : rest = [] := List.length_eq_zero.mp hr
      subst hnil
      simp [atomPairs]
    | succ k =>
      rw [hr, Nat.add_sub_cancel] at ih
      calc 2 * (k + 1 + (atomPairs rest).length)
          = 2 * (k + 1) + 2 * (atomPairs rest).length := by ring
        _ = 2 * (k + 1) + (k + 1) * k := by rw [ih]
        _ = (k + 1 + 1) * (k + 1) := by ring

/-- A cylinder line is not a sphere line. -/
theorem isCylinder_not_isSphere (l : Line) (h : l.isCylinder = true) :
    l.isSphere = false := by
  cases l <;> simp_all [Line.isCylinder, Line.isSphere]

/-- C4: for an atom list of size `n` the generator emits exactly `n` sphere
lines, a cylinder line per unordered pair whose distance is strictly below
the pair's threshold, and hence at most `n * (n - 1) / 2` cylinder lines. -/
theorem generate_counts (atoms : List Atom) :
    (generate_map_content atoms).countP Line.isSphere = atoms.length ∧
    (generate_map_content atoms).countP Line.isCylinder
        = ((atomPairs atoms).filter fun p => bondedB p.1 p.2).length ∧
    (generate_map_content atoms).countP Line.isCylinder
        ≤ atoms.length * (atoms.length - 1) / 2 ∧
    (∀ a b : Atom, bondedB a b = true ↔
      Real.sqrt ((distSq a.2 b.2 : ℚ) : ℝ)
        < ((determine_bond_threshold a.1 b.1 : ℚ) : ℝ)) := by
  have hform : generate_map_content atoms
      = preamble ++ atoms.map sphereLine ++ specCylinderOrder atoms := by
    unfold generate_map_content
    rw [cylinderSection_eq_specCylinderOrder]
  have hsphere : (generate_map_content atoms).countP Line.isSphere = atoms.length := by
    rw [hform, List.countP_append, List.countP_append]
    have h1 : preamble.countP Line.isSphere = 0 := rfl
    have h2 : (atoms.map sphereLine).countP Line.isSphere = atoms.length := by
      rw [List.countP_map]
      have : (atoms.countP (Line.isSphere ∘ sphereLine)) = atoms.length :=
        List.countP_eq_length.mpr fun a _ => rfl
      rw [this]
    have h3 : (specCylinderOrder atoms).countP Line.isSphere = 0 :=
      List.countP_eq_zero.mpr fun l hl => by
        rw [isCylinder_not_isSphere l (specCylinderOrder_isCylinder atoms l hl)]
        exact Bool.false_ne_true
    rw [h1, h2, h3]
    omega
  have hcyl : (generate_map_content atoms).countP Line.isCylinder
      = ((atomPairs atoms).filter fun p => bondedB p.1 p.2).length := by
    rw [hform, List.countP_append, List.countP_append]
    have h1 : preamble.countP Line.isCylinder = 0 := rfl
    have h2 : (atoms.map sphereLine).countP Line.isCylinder = 0 := by
      rw [List.countP_map]
      exact List.countP_eq_zero.mpr fun a _ => Bool.false_ne_true
    have h3 : (specCylinderOrder atoms).countP Line.isCylinder
        = (specCylinderOrder atoms).length :=
      List.countP_eq_length.mpr (specCylinderOrder_isCylinder atoms)
    rw [h1, h2, h3, specCylinderOrder_length]
    omega
  refine ⟨hsphere, hcyl, ?_, ?_⟩
  · rw [hcyl]
    rw [Nat.le_div_iff_mul_le (by norm_num : 0 < 2)]
    calc ((atomPairs atoms).filter fun p => bondedB p.1 p.2).length * 2
        = 2 * ((atomPairs atoms).filter fun p => bondedB p.1 p.2).length := by ring
      _ ≤ 2 * (atomPairs atoms).length :=
          Nat.mul_le_mul_left 2 (List.length_filter_le _ _)
      _ = atoms.length * (atoms.length - 1) := atomPairs_two_mul_length atoms
  · intro a b
    rw [sqrt_lt_iff_sq_lt _ _ (determine_bond_threshold_pos a.1 b.1)]
    unfold bondedB
    exact decide_eq_true_iff

/-- C8: the parser silently drops every line with fewer than 4 tokens and
keeps going, and it fails (the error propagates, nothing is recovered)
exactly when some line with at least 4 tokens has a 2nd, 3rd or 4th token on
which the float conversion fails. -/
theorem parse_xyz_data_spec (pf : String → Option ℚ) (lines : List (List String)) :
    (parse_xyz_data pf lines = none ↔
      ∃ parts ∈ lines, 4 ≤ parts.length ∧
        (pf (parts.getD 1 "") = none ∨ pf (parts.getD 2 "") = none ∨
          pf (parts.getD 3 "") = none)) ∧
    (∀ parts rest, parts.length < 4 →
      parse_xyz_data pf (parts :: rest) = parse_xyz_data pf rest) := by
  constructor
  · induction lines with
    | nil => simp [parse_xyz_data]
    | cons parts rest ih =>
      rw [parse_xyz_data]
      by_cases hlen : parts.length < 4
      · rw [if_pos hlen, ih]
        constructor
        · intro ⟨p, hp, hq⟩
          exact ⟨p, List.mem_cons_of_mem _ hp, hq⟩
        · intro ⟨p, hp, hq⟩
          rcases List.mem_cons.mp hp with hpe | hpm
          · exfalso; rw [hpe] at hq; omega
          · exact ⟨p, hpm, hq⟩
      · rw [if_neg hlen]
        rcases hx : pf (parts.getD 1 "") with _ | x
        · simp only [hx]
          constructor
          · intro _
            exact ⟨parts, List.mem_cons_self _ _, by omega, Or.inl hx⟩
          · intro _; trivial
        · rcases hy : pf (parts.getD 2 "") with _ | y
          · simp only [hx, hy]
            constructor
            · intro _
              exact ⟨parts, List.mem_cons_self _ _, by omega, Or.inr (Or.inl hy)⟩
            · intro _; trivial
          · rcases hz : pf (parts.getD 3 "") with _ | z
            · simp only [hx, hy, hz]
              constructor
              · intro _
                exact ⟨parts, List.mem_cons_self _ _, by omega, Or.inr (Or.inr hz)⟩
              · intro _; trivial
            · simp only [hx, hy, hz, Option.map_eq_none']
              rw [ih]
              constructor
              · intro ⟨p, hp, hq⟩
                exact ⟨p, List.mem_cons_of_mem _ hp, hq⟩
              · intro ⟨p, hp, hq⟩
                rcases List.mem_cons.mp hp with hpe | hpm
                · exfalso
                  rw [hpe] at hq
                  rcases hq.2 with h | h | h
                  · rw [hx] at h; cases h
                  · rw [hy] at h; cases h
                  · rw [hz] at h; cases h
                · exact ⟨p, hpm, hq⟩
  · intro parts rest hlen
    rw [parse_xyz_data, if_pos hlen]

/-- C10: a line with more than 4 whitespace-separated tokens is accepted:
the first token becomes the element label, tokens 2–4 the coordinates, and
every extra token is ignored without error — the float conversion is never
applied to it. -/
theorem parse_xyz_data_extra_tokens (pf : String → Option ℚ)
    (t0 t1 t2 t3 : String) (extras : List String) (rest : List (List String))
    (x y z : ℚ) (hextra : extras ≠ [])
    (hx : pf t1 = some x) (hy : pf t2 = some y) (hz : pf t3 = some z) :
    parse_xyz_data pf ((t0 :: t1 :: t2 :: t3 :: extras) :: rest)
      = (parse_xyz_data pf rest).map fun atoms => (t0, (⟨x, y, z⟩ : Vec3)) :: atoms := by
  rw [parse_xyz_data, if_neg (by simp)]
  have h1 : (t0 :: t1 :: t2 :: t3 :: extras).getD 1 "" = t1 := rfl
  have h2 : (t0 :: t1 :: t2 :: t3 :: extras).getD 2 "" = t2 := rfl
  have h3 : (t0 :: t1 :: t2 :: t3 :: extras).getD 3 "" = t3 := rfl
  rw [h1, h2, h3, hx, hy, hz]
  rfl

/-- The default threshold applies to the carbon–carbon pair. -/
theorem threshold_CC : determine_bond_threshold "C" "C" = 8/5 := by
  unfold determine_bond_threshold
  split_ifs with h
  · exfalso
    rcases h with ⟨h1, _⟩ | ⟨h1, _⟩ <;> exact absurd h1 (by decide)
  · rfl

/-- Concrete evaluation: two carbons one unit apart are bonded and yield
this cylinder. -/
theorem emitFor_CC_unit :
    emitFor ("C", ⟨0, 0, 0⟩) ("C", ⟨1, 0, 0⟩)
      = some (Line.cylinder ⟨1/2, 0, 0⟩ ⟨⟨1, 0, 0⟩, 1⟩ (2/5) 1 (200, 200, 200)) := by
  have hd : distSq ⟨0, 0, 0⟩ ⟨1, 0, 0⟩ = 1 := by norm_num [distSq, Vec3.normSq, Vec3.sub]
  have hb : bondedB ("C", ⟨0, 0, 0⟩) ("C", ⟨1, 0, 0⟩) = true := by
    unfold bondedB
    show decide (distSq ⟨0, 0, 0⟩ ⟨1, 0, 0⟩ < determine_bond_threshold "C" "C" ^ 2) = true
    rw [hd, threshold_CC, decide_eq_true_eq]
    norm_num
  rw [emitFor_def, if_pos hb]
  norm_num [Vec3.smul, Vec3.add, Vec3.sub, normalize, Vec3.normSq, cylinder_radius, hd]

/-! ### Witnesses: the claim theorems applied at concrete inputs -/

/-- Witness for C1: two carbons exactly at the threshold distance 1.6 — no
cylinder is emitted. -/
theorem pairEmit_iff_dist_lt_witness :
    pairEmit [(("C" : String), (⟨0, 0, 0⟩ : Vec3)), ("C", ⟨8/5, 0, 0⟩)] 0 1 = none := by
  apply (pairEmit_iff_dist_lt [(("C" : String), (⟨0, 0, 0⟩ : Vec3)), ("C", ⟨8/5, 0, 0⟩)]
    0 1 (by decide) (by decide)).2.1
  show Real.sqrt ((distSq ⟨0, 0, 0⟩ ⟨8/5, 0, 0⟩ : ℚ) : ℝ)
      = ((determine_bond_threshold "C" "C" : ℚ) : ℝ)
  rw [show (distSq ⟨0, 0, 0⟩ ⟨8/5, 0, 0⟩ : ℚ) = 64/25 from by
        norm_num [distSq, Vec3.normSq, Vec3.sub],
    threshold_CC,
    show ((64/25 : ℚ) : ℝ) = ((8/5 : ℚ) : ℝ) ^ 2 from by norm_num]
  exact Real.sqrt_sq (by norm_num)

/-- Witness for C2: the threshold policy at the pair ("P", "O"). -/
theorem determine_bond_threshold_spec_witness :
    determine_bond_threshold "P" "O"
        = (if ({"P", "O"} : Finset String) = {"P", "O"} then 9/5 else 8/5) ∧
    determine_bond_threshold "P" "O" = determine_bond_threshold "O" "P" :=
  determine_bond_threshold_spec "P" "O"

/-- Witness for C3: the one cylinder of a two-carbon molecule at distance 1
carries the claimed fields. -/
theorem cylinder_fields_witness :
    ∃ i j, i < j ∧ j < ([(("C" : String), (⟨0, 0, 0⟩ : Vec3)), ("C", ⟨1, 0, 0⟩)] : List Atom).length ∧
      bondedB (([(("C" : String), (⟨0, 0, 0⟩ : Vec3)), ("C", ⟨1, 0, 0⟩)] : List Atom).getD i dummyAtom)
        (([(("C" : String), (⟨0, 0, 0⟩ : Vec3)), ("C", ⟨1, 0, 0⟩)] : List Atom).getD j dummyAtom) = true ∧
      Line.cylinder ⟨1/2, 0, 0⟩ ⟨⟨1, 0, 0⟩, 1⟩ (2/5) 1 (200, 200, 200)
        = Line.cylinder
          (Vec3.smul (1/2) ((([(("C" : String), (⟨0, 0, 0⟩ : Vec3)), ("C", ⟨1, 0, 0⟩)] : List Atom).getD i dummyAtom).2.add
            ((([(("C" : String), (⟨0, 0, 0⟩ : Vec3)), ("C", ⟨1, 0, 0⟩)] : List Atom).getD j dummyAtom).2)))
          (normalize ((([(("C" : String), (⟨0, 0, 0⟩ : Vec3)), ("C", ⟨1, 0, 0⟩)] : List Atom).getD j dummyAtom).2.sub
            ((([(("C" : String), (⟨0, 0, 0⟩ : Vec3)), ("C", ⟨1, 0, 0⟩)] : List Atom).getD i dummyAtom).2)))
          (cylinder_radius * 2)
          (distSq ((([(("C" : String), (⟨0, 0, 0⟩ : Vec3)), ("C", ⟨1, 0, 0⟩)] : List Atom).getD i dummyAtom).2)
            ((([(("C" : String), (⟨0, 0, 0⟩ : Vec3)), ("C", ⟨1, 0, 0⟩)] : List Atom).getD j dummyAtom).2))
          (200, 200, 200) ∧
      cylinder_radius * 2 = 2/5 := by
  refine cylinder_fields [(("C" : String), (⟨0, 0, 0⟩ : Vec3)), ("C", ⟨1, 0, 0⟩)]
    (Line.cylinder ⟨1/2, 0, 0⟩ ⟨⟨1, 0, 0⟩, 1⟩ (2/5) 1 (200, 200, 200)) ?_ rfl
  unfold generate_map_content
  refine List.mem_append.mpr (Or.inr ?_)
  refine pairEmit_mem_cylinderSection (i := 0) (j := 1) (by norm_num) (by norm_num) ?_
  exact emitFor_CC_unit

/-- Witness for C4: a two-carbon molecule at distance 1 has 2 sphere lines
and its cylinder count is the bonded-pair count, at most 1. -/
theorem generate_counts_witness :
    (generate_map_content [(("C" : String), (⟨0, 0, 0⟩ : Vec3)), ("C", ⟨1, 0, 0⟩)]).countP
        Line.isSphere = 2 ∧
    (generate_map_content [(("C" : String), (⟨0, 0, 0⟩ : Vec3)), ("C", ⟨1, 0, 0⟩)]).countP
        Line.isCylinder
      = ((atomPairs [(("C" : String), (⟨0, 0, 0⟩ : Vec3)), ("C", ⟨1, 0, 0⟩)]).filter
          fun p => bondedB p.1 p.2).length ∧
    (generate_map_content [(("C" : String), (⟨0, 0, 0⟩ : Vec3)), ("C", ⟨1, 0, 0⟩)]).countP
        Line.isCylinder ≤ 1 :=
  ⟨(generate_counts _).1, (generate_counts _).2.1, (generate_counts _).2.2.1⟩

/-- Witness for C5: the output of a one-carbon molecule in the stated
order. -/
theorem generate_map_content_order_witness :
    generate_map_content [(("C" : String), (⟨0, 0, 0⟩ : Vec3))]
      = preamble ++ ([(("C" : String), (⟨0, 0, 0⟩ : Vec3))] : List Atom).map sphereLine
          ++ specCylinderOrder [(("C" : String), (⟨0, 0, 0⟩ : Vec3))] :=
  (generate_map_content_order [(("C" : String), (⟨0, 0, 0⟩ : Vec3))]).1

/-- Witness for C6: `normalize ⟨1, 2, 2⟩` (norm 3) divides by its norm and
has real norm 1. -/
theorem normalize_spec_witness :
    (normalize ⟨1, 2, 2⟩).vec = (⟨1, 2, 2⟩ : Vec3) ∧
    (normalize ⟨1, 2, 2⟩).scaleSq = (⟨1, 2, 2⟩ : Vec3).normSq ∧
    0 < Real.sqrt (((normalize ⟨1, 2, 2⟩).scaleSq : ℚ) : ℝ) ∧
    (((normalize ⟨1, 2, 2⟩).vec.x : ℝ) / Real.sqrt ((normalize ⟨1, 2, 2⟩).scaleSq : ℝ)) ^ 2
      + (((normalize ⟨1, 2, 2⟩).vec.y : ℝ) / Real.sqrt ((normalize ⟨1, 2, 2⟩).scaleSq : ℝ)) ^ 2
      + (((normalize ⟨1, 2, 2⟩).vec.z : ℝ) / Real.sqrt ((normalize ⟨1, 2, 2⟩).scaleSq : ℝ)) ^ 2
        = 1 := by
  have h := normalize_spec ⟨1, 2, 2⟩
  have h9 : (⟨1, 2, 2⟩ : Vec3).normSq ≠ 0 := by norm_num [Vec3.normSq]
  exact ⟨h.2.1, (h.2.2.2.2 h9).1, (h.2.2.2.2 h9).2.1, (h.2.2.2.2 h9).2.2⟩

/-- Witness for C8: a short line is skipped; a 4-token line with an
unparseable 4th token makes the whole parse fail. -/
theorem parse_xyz_data_spec_witness :
    parse_xyz_data (fun s => if s = "bad" then none else some 0)
        [["H", "1", "2", "bad"]] = none ∧
    parse_xyz_data (fun s => if s = "bad" then none else some 0)
        [["x"], ["H", "1", "2", "3"]]
      = parse_xyz_data (fun s => if s = "bad" then none else some 0)
        [["H", "1", "2", "3"]] := by
  constructor
  · exact (parse_xyz_data_spec (fun s => if s = "bad" then none else some 0)
      [["H", "1", "2", "bad"]]).1.mpr
      ⟨["H", "1", "2", "bad"], by decide, by decide, Or.inr (Or.inr (by decide))⟩
  · exact (parse_xyz_data_spec (fun s => if s = "bad" then none else some 0)
      [["x"], ["H", "1", "2", "3"]]).2 ["x"] [["H", "1", "2", "3"]] (by decide)

/-- Witness for C9: two hydrogens at the same point produce a zero-length
cylinder with zero direction. -/
theorem pairEmit_duplicate_position_witness :
    pairEmit [(("H" : String), (⟨0, 0, 0⟩ : Vec3)), ("H", ⟨0, 0, 0⟩)] 0 1
        = some (Line.cylinder ⟨0, 0, 0⟩ (normalize ⟨0, 0, 0⟩) (cylinder_radius * 2) 0
            (200, 200, 200)) ∧
    normalize ⟨0, 0, 0⟩ = ⟨⟨0, 0, 0⟩, 1⟩ := by
  have h := pairEmit_duplicate_position
    [(("H" : String), (⟨0, 0, 0⟩ : Vec3)), ("H", ⟨0, 0, 0⟩)] 0 1 (by decide) (by decide) rfl
  exact ⟨h.1, h.2.1⟩

/-- Witness for C10: a 5-token line whose extra token is not numeric parses
to one atom. -/
theorem parse_xyz_data_extra_tokens_witness :
    parse_xyz_data (fun s => if s = "junk" then none else some 0)
        [["H", "1", "2", "3", "junk"]]
      = some [("H", (⟨0, 0, 0⟩ : Vec3))] := by
  rw [parse_xyz_data_extra_tokens (fun s => if s = "junk" then none else some 0)
    "H" "1" "2" "3" ["junk"] [] 0 0 0 (by decide) (by decide) (by decide) (by decide)]
  rfl

end MolParse
